import Mathlib

/-!
# Gateway Process Supervisor and RPC Transport: verification development

Shallow embedding of the GatewayManager class (src/electron/gateway/manager.ts)
and of the gateway IPC handlers (registerGatewayHandlers). The mutable fields
of the manager become a ManagerState record; each method / event handler
becomes a pure state transformer that additionally returns the list of
observable effects it performs (promise settlements, emitted events, socket
close, process kill, timer scheduling, outbound sends). Timers are modelled
by their lifetime: the 30s timer of a pending request exists exactly as long
as its table entry does (the code clears the timer exactly when it deletes
the entry), so a timeout event is a no-op when the id is no longer in the
table, mirroring clearTimeout. JavaScript value semantics that the code
relies on (truthiness of message.error / message.id / pid, String conversion,
object-spread merge in setStatus, resolve-before-async-reject in the
startProcess promise executor) are modelled explicitly.
-/

set_option maxHeartbeats 1000000

namespace ClawX

/-- A JavaScript value, as far as the gateway code inspects one:
the code only ever tests truthiness and applies String conversion.
The errObj variant is an Error instance with the given message. -/
inductive JsVal
  | undef
  | null
  | boolean (b : Bool)
  | number (n : Int)
  | string (s : String)
  | object
  | errObj (msg : String)
deriving DecidableEq, Repr

/-- JavaScript truthiness: undefined, null, false, 0 and the empty string
are falsy, everything else is truthy. -/
def JsVal.truthy : JsVal → Bool
  | .undef => false
  | .null => false
  | .boolean b => b
  | .number n => !(n == 0)
  | .string s => !(s == "")
  | .object => true
  | .errObj _ => true

/-- JavaScript String conversion (an Error instance converts to
"Error: " followed by its message). -/
def JsVal.toJsString : JsVal → String
  | .undef => "undefined"
  | .null => "null"
  | .boolean b => if b then "true" else "false"
  | .number n => toString n
  | .string s => s
  | .object => "[object Object]"
  | .errObj m => "Error: " ++ m

/-- Supervisor lifecycle state, one of stopped, starting, running, error. -/
inductive GWState
  | stopped
  | starting
  | running
  | error
deriving DecidableEq, Repr

/-- The default gateway port PORTS.OPENCLAW_GATEWAY (18789, per the docs of
the repository and the initial state of the renderer store). -/
def GATEWAY_PORT : Nat := 18789

/-- The GatewayStatus interface: the supervision-state snapshot. -/
structure GatewayStatus where
  state : GWState
  port : Nat
  pid : Option Nat := none
  uptime : Option Nat := none
  error : Option String := none
  connectedAt : Option Nat := none
deriving DecidableEq, Repr

/-- A partial GatewayStatus as passed to setStatus: present keys override,
absent keys keep the old value (object-spread merge). For the optional
status fields the outer Option is key presence, the inner one the value of
the field. -/
structure StatusUpdate where
  state : Option GWState := none
  port : Option Nat := none
  pid : Option (Option Nat) := none
  uptime : Option (Option Nat) := none
  error : Option (Option String) := none
  connectedAt : Option (Option Nat) := none
deriving DecidableEq, Repr

/-- Object-spread merge of the update over the current status. -/
def applyUpdate (s : GatewayStatus) (u : StatusUpdate) : GatewayStatus :=
  { state := u.state.getD s.state
    port := u.port.getD s.port
    pid := u.pid.getD s.pid
    uptime := u.uptime.getD s.uptime
    error := u.error.getD s.error
    connectedAt := u.connectedAt.getD s.connectedAt }

/-- One entry of the pending-request table. The resolve/reject callbacks are
modelled by settle effects keyed by the correlation id; the timeout timer
handle is modelled by the lifetime of the entry itself (the code clears the
timer exactly when the entry is removed). The method name is captured by
the timeout closure at registration time. -/
structure PendingReq where
  method : String
deriving DecidableEq, Repr

/-- The pending-request table: a string-keyed Map in insertion order. -/
abbrev PendingTable := List (String × PendingReq)

/-- Key-membership test of the Map. -/
def tblHas : PendingTable → String → Bool
  | [], _ => false
  | p :: rest, id => p.1 == id || tblHas rest id

/-- Lookup in the Map. -/
def tblGet : PendingTable → String → Option PendingReq
  | [], _ => none
  | p :: rest, id => if p.1 == id then some p.2 else tblGet rest id

/-- Insert-or-replace in the Map: replace in place if the key exists, else
append. -/
def tblSet : PendingTable → String → PendingReq → PendingTable
  | [], id, r => [(id, r)]
  | p :: rest, id, r => if p.1 == id then (p.1, r) :: rest else p :: tblSet rest id r

/-- Removal of a key from the Map. -/
def tblDelete : PendingTable → String → PendingTable
  | [], _ => []
  | p :: rest, id => if p.1 == id then tblDelete rest id else p :: tblDelete rest id

/-- How many entries carry the given key (1 or 0 for tables built by
tblSet). -/
def tblCount : PendingTable → String → Nat
  | [], _ => 0
  | p :: rest, id => (if p.1 == id then 1 else 0) + tblCount rest id

/-- WebSocket readyState value OPEN. -/
def wsOPEN : Nat := 1

/-- WebSocket readyState value CLOSED. -/
def wsCLOSED : Nat := 3

/-- Test that the held socket exists and its readyState is OPEN. -/
def wsIsOpen : Option Nat → Bool
  | some r => r == wsOPEN
  | none => false

/-- The ChildProcess handle: the code only reads its pid. -/
structure ProcHandle where
  pid : Option Nat
deriving DecidableEq, Repr

/-- The mutable fields of the GatewayManager instance. The ws field is the
readyState of the held socket, if any. -/
structure ManagerState where
  process : Option ProcHandle := none
  ws : Option Nat := none
  status : GatewayStatus
  reconnectTimer : Bool := false
  pingInterval : Bool := false
  pendingRequests : PendingTable := []
deriving DecidableEq, Repr

/-- The freshly constructed manager. -/
def initialState : ManagerState :=
  { status := { state := .stopped, port := GATEWAY_PORT } }

/-- A parsed inbound WebSocket message, as handleMessage inspects it:
optional id, result and error properties (an absent property reads as
undefined). -/
structure InMessage where
  id : Option String := none
  result : JsVal := .undef
  error : JsVal := .undef
deriving DecidableEq, Repr

/-- Truthiness of the id property (an absent property is undefined). -/
def idTruthy : Option String → Bool
  | some s => !(s == "")
  | none => false

/-- Settlement of a promise. -/
inductive Outcome
  | resolved (v : JsVal)
  | rejected (msg : String)
deriving DecidableEq, Repr

/-- Observable effects of one synchronous run of manager code. -/
inductive Eff
  | settle (id : String) (o : Outcome)
  | rpcEarlyReject (msg : String)
  | statusEmit (s : GatewayStatus)
  | messageEmit (m : InMessage)
  | exitEmit (code : Option Int)
  | wsClosed
  | processKilled
  | reconnectScheduled (delayMs : Nat)
  | sent (id : String) (method : String) (params : JsVal)
deriving DecidableEq, Repr

/-- Merge-and-emit setStatus: apply the update and emit a status event
carrying the new snapshot. -/
def setStatusE (st : ManagerState) (u : StatusUpdate) : ManagerState × Eff :=
  let s := applyUpdate st.status u
  ({ st with status := s }, Eff.statusEmit s)

/-- Snapshot accessor getStatus (copy-out semantics). -/
def getStatus (st : ManagerState) : GatewayStatus :=
  st.status

/-- The environment one start attempt runs against: what the health probe,
the spawn facility, the readiness polling and the socket handshake would
report. -/
structure Env where
  /-- whether findExistingGateway found a healthy backend on the default
  port. -/
  existingGateway : Bool := false
  /-- the pid of the spawned ChildProcess (absent when the spawn failed). -/
  spawnPid : Option Nat := none
  /-- the spawn fails, so an error event will be delivered to the process
  handle asynchronously, after the executor has returned. -/
  spawnErrors : Bool := false
  /-- whether waitForReady sees a 2xx health response within its 30
  attempts. -/
  readyOk : Bool := true
  /-- the socket handshake outcome: none means the open event fires; some m
  means the error event fires with an Error whose message is m. -/
  connectErr : Option String := none
  /-- the clock value at the moment the socket opens. -/
  now : Nat := 0
deriving DecidableEq, Repr

/-- JavaScript String conversion applied to an Error with message m. -/
def errStr (m : String) : String := "Error: " ++ m

/-- A one-shot promise cell: resolve or reject on an already-settled
promise is a no-op. -/
def promSettle (p : Option (Except String Unit)) (r : Except String Unit) :
    Option (Except String Unit) :=
  match p with
  | some v => some v
  | none => some r

/-- The settled value of the promise returned by startProcess. The executor
registers the error and exit handlers, records the pid, and then calls
resolve synchronously on its last line. The error event of a failed spawn
is delivered asynchronously, only after the executor has returned, so its
reject hits an already-resolved promise. -/
def startProcessSettled (env : Env) : Option (Except String Unit) :=
  let afterExecutor := promSettle none (Except.ok ())
  if env.spawnErrors then
    promSettle afterExecutor (Except.error (errStr "spawn openclaw ENOENT"))
  else
    afterExecutor

/-- What awaiting the startProcess promise yields. -/
def startProcessResult (env : Env) : Except String Unit :=
  (startProcessSettled env).getD (Except.ok ())

/-- Synchronous state changes of startProcess: store the handle and, when
the pid is available (truthy), record it in the status. -/
def startProcessState (st : ManagerState) (env : Env) : ManagerState × List Eff :=
  let st1 := { st with process := some ⟨env.spawnPid⟩ }
  match env.spawnPid with
  | some p =>
      if p ≠ 0 then
        let (st2, e2) := setStatusE st1 { pid := some (some p) }
        (st2, [e2])
      else (st1, [])
  | none => (st1, [])

/-- Connection step: on the open event, set running state, record
connectedAt, start the ping interval and resolve; on the error event,
reject with the error. -/
def connectStep (st : ManagerState) (port : Nat) (env : Env) :
    ManagerState × List Eff × Except String Unit :=
  match env.connectErr with
  | none =>
      let st1 := { st with ws := some wsOPEN }
      let (st2, e2) := setStatusE st1
        { state := some .running, port := some port, connectedAt := some (some env.now) }
      let st3 := { st2 with pingInterval := true }
      (st3, [e2], Except.ok ())
  | some m =>
      ({ st with ws := some wsCLOSED }, [], Except.error (errStr m))

/-- The body of the try block in start, after the transition to starting:
adopt an existing backend if the probe succeeds, else launch, poll
readiness, and connect. -/
def startBody (st : ManagerState) (env : Env) :
    ManagerState × List Eff × Except String Unit :=
  if env.existingGateway then
    connectStep st GATEWAY_PORT env
  else
    let (st1, e1) := startProcessState st env
    match startProcessResult env with
    | Except.error m => (st1, e1, Except.error m)
    | Except.ok _ =>
        if env.readyOk then
          let (st2, e2, r) := connectStep st1 st1.status.port env
          (st2, e1 ++ e2, r)
        else
          (st1, e1, Except.error (errStr "Gateway failed to start"))

/-- Method start: a no-op when already running; otherwise set starting, run
the adopt-or-launch sequence, and on any failure set the error state with
the stringified error and re-throw it. -/
def start (st : ManagerState) (env : Env) :
    ManagerState × List Eff × Except String Unit :=
  if st.status.state == .running then
    (st, [], Except.ok ())
  else
    let (st1, e1) := setStatusE st { state := some .starting }
    let (st2, e2, r) := startBody st1 env
    match r with
    | Except.ok _ => (st2, e1 :: e2, Except.ok ())
    | Except.error m =>
        let (st3, e3) := setStatusE st2 { state := some .error, error := some (some m) }
        (st3, (e1 :: e2) ++ [e3], Except.error m)

/-- Method stop: clear both timers, close the socket if any, kill the
process if any, reject every pending request with a Gateway-stopped Error,
clear the table, and set the stopped state. -/
def stop (st : ManagerState) : ManagerState × List Eff :=
  let st1 := { st with reconnectTimer := false, pingInterval := false }
  let (st2, e2) :=
    match st1.ws with
    | some _ => ({ st1 with ws := none }, [Eff.wsClosed])
    | none => (st1, ([] : List Eff))
  let (st3, e3) :=
    match st2.process with
    | some _ => ({ st2 with process := none }, [Eff.processKilled])
    | none => (st2, ([] : List Eff))
  let rejects := st3.pendingRequests.map
    (fun p => Eff.settle p.1 (Outcome.rejected "Gateway stopped"))
  let st4 := { st3 with pendingRequests := [] }
  let (st5, e5) := setStatusE st4 { state := some .stopped }
  (st5, e2 ++ e3 ++ rejects ++ [e5])

/-- Method rpc with the freshly generated UUID id: reject synchronously
with a Gateway-not-connected Error when the socket is not open (before any
id is generated or registered); otherwise register the pending request and
send the JSON-RPC envelope. -/
def rpc (st : ManagerState) (method : String) (id : String) (params : JsVal) :
    ManagerState × List Eff :=
  if !(wsIsOpen st.ws) then
    (st, [Eff.rpcEarlyReject "Gateway not connected"])
  else
    let st1 := { st with pendingRequests := tblSet st.pendingRequests id ⟨method⟩ }
    (st1, [Eff.sent id method params])

/-- Handler handleMessage: a truthy id with a pending entry settles that
entry (clear the timer, delete the entry, then reject with the stringified
error value when the error property is truthy, else resolve with the result
property); every other message is emitted as a message event. -/
def handleMessage (st : ManagerState) (m : InMessage) : ManagerState × List Eff :=
  match m.id with
  | some i =>
      if !(i == "") && tblHas st.pendingRequests i then
        let st1 := { st with pendingRequests := tblDelete st.pendingRequests i }
        if m.error.truthy then
          (st1, [Eff.settle i (Outcome.rejected m.error.toJsString)])
        else
          (st1, [Eff.settle i (Outcome.resolved m.result)])
      else
        (st, [Eff.messageEmit m])
  | none => (st, [Eff.messageEmit m])

/-- The 30000ms timer of the request with this id fires: delete the entry
and reject with an RPC-timeout Error naming the method. A no-op when the
entry (and hence the timer, cleared together with it) is gone. -/
def fireTimeout (st : ManagerState) (id : String) : ManagerState × List Eff :=
  match tblGet st.pendingRequests id with
  | some req =>
      ({ st with pendingRequests := tblDelete st.pendingRequests id },
       [Eff.settle id (Outcome.rejected ("RPC timeout: " ++ req.method))])
  | none => (st, [])

/-- Method scheduleReconnect: single-shot; return if a timer is already
scheduled, else schedule one 5000ms out. -/
def scheduleReconnect (st : ManagerState) : ManagerState × List Eff :=
  if st.reconnectTimer then (st, [])
  else ({ st with reconnectTimer := true }, [Eff.reconnectScheduled 5000])

/-- The close event of the socket: its readyState becomes CLOSED; if the
manager still believes it is running (unexpected disconnect) set the
stopped state and schedule a reconnect, else do nothing. -/
def onWsClose (st : ManagerState) : ManagerState × List Eff :=
  let st0 := { st with ws := st.ws.map (fun _ => wsCLOSED) }
  if st0.status.state == .running then
    let (st1, e1) := setStatusE st0 { state := some .stopped }
    let (st2, e2) := scheduleReconnect st1
    (st2, e1 :: e2)
  else
    (st0, [])

/-- The exit event of the child process: emit an exit event; if still
running, set the stopped state and schedule a reconnect. -/
def onProcExit (st : ManagerState) (code : Option Int) : ManagerState × List Eff :=
  if st.status.state == .running then
    let (st1, e1) := setStatusE st { state := some .stopped }
    let (st2, e2) := scheduleReconnect st1
    (st2, Eff.exitEmit code :: e1 :: e2)
  else
    (st, [Eff.exitEmit code])

/-- The 5000ms reconnect timer fires: clear the handle, run start, and on
failure schedule another attempt. A no-op when no timer is set. -/
def fireReconnect (st : ManagerState) (env : Env) : ManagerState × List Eff :=
  if st.reconnectTimer then
    let st1 := { st with reconnectTimer := false }
    let (st2, effs, r) := start st1 env
    match r with
    | Except.ok _ => (st2, effs)
    | Except.error _ =>
        let (st3, e3) := scheduleReconnect st2
        (st3, effs ++ e3)
  else
    (st, [])

/-- One event on the single-threaded event loop. -/
inductive Event
  | doStart (env : Env)
  | doStop
  | doRpc (method : String) (id : String) (params : JsVal)
  | recv (m : InMessage)
  | timeoutFire (id : String)
  | wsClose
  | procExit (code : Option Int)
  | reconnectFire (env : Env)
deriving DecidableEq, Repr

/-- Small-step semantics: dispatch one event. -/
def step (st : ManagerState) : Event → ManagerState × List Eff
  | .doStart env => ((start st env).1, (start st env).2.1)
  | .doStop => stop st
  | .doRpc method id params => rpc st method id params
  | .recv m => handleMessage st m
  | .timeoutFire id => fireTimeout st id
  | .wsClose => onWsClose st
  | .procExit c => onProcExit st c
  | .reconnectFire env => fireReconnect st env

/-- Run a sequence of events. -/
def run (st : ManagerState) : List Event → ManagerState
  | [] => st
  | e :: es => run (step st e).1 es

/-- How many settle effects in a list target the given correlation id. -/
def settlesOf : List Eff → String → Nat
  | [], _ => 0
  | Eff.settle i _ :: es, X => (if i == X then 1 else 0) + settlesOf es X
  | _ :: es, X => settlesOf es X

/-- Total number of settlements of the given id along a trace. -/
def traceSettles (st : ManagerState) : List Event → String → Nat
  | [], _ => 0
  | e :: es, X => settlesOf (step st e).2 X + traceSettles (step st e).1 es X

/-- Does this event register a pending request under the given id? Only
rpc inserts into the table. -/
def registersId : Event → String → Bool
  | .doRpc _ i _, X => i == X
  | _, _ => false

/-- Does the effect list contain a rejection settlement for the id? -/
def hasRejectFor (effs : List Eff) (id : String) : Bool :=
  effs.any (fun e =>
    match e with
    | Eff.settle i (Outcome.rejected _) => i == id
    | _ => false)

/-- Is this effect a promise settlement? -/
def isSettleEff : Eff → Bool
  | Eff.settle _ _ => true
  | _ => false

/-- The gateway IPC commands registered by registerGatewayHandlers. -/
inductive GwCommand
  | status
  | cmdStart
  | cmdStop
  | cmdRestart
  | cmdRpc (method : String) (params : JsVal)
deriving DecidableEq, Repr

/-- What the underlying GatewayManager operations do when the bridge
invokes them: each either returns normally or throws a JavaScript value. -/
structure BridgeEnv where
  startR : Except JsVal Unit
  stopR : Except JsVal Unit
  rpcR : Except JsVal JsVal
deriving Repr

/-- What one IPC handler resolves to. -/
inductive IpcReply
  | raw (s : GatewayStatus)
  | tagged (success : Bool) (result : Option JsVal) (error : Option String)
deriving DecidableEq, Repr

/-- Is the reply of the tagged success/result/error shape? -/
def isTagged : IpcReply → Bool
  | IpcReply.raw _ => false
  | IpcReply.tagged _ _ _ => true

/-- The gateway IPC handlers: the status command returns the raw status
snapshot; the start, stop, restart and rpc commands wrap the manager call
in try/catch and return a tagged success result or a tagged failure result
carrying the stringified thrown value. -/
def ipcHandle (st : ManagerState) (b : BridgeEnv) : GwCommand → IpcReply
  | .status => .raw (getStatus st)
  | .cmdStart =>
      match b.startR with
      | .ok _ => .tagged true none none
      | .error e => .tagged false none (some e.toJsString)
  | .cmdStop =>
      match b.stopR with
      | .ok _ => .tagged true none none
      | .error e => .tagged false none (some e.toJsString)
  | .cmdRestart =>
      match b.stopR with
      | .error e => .tagged false none (some e.toJsString)
      | .ok _ =>
          match b.startR with
          | .ok _ => .tagged true none none
          | .error e => .tagged false none (some e.toJsString)
  | .cmdRpc _ _ =>
      match b.rpcR with
      | .ok v => .tagged true (some v) none
      | .error e => .tagged false none (some e.toJsString)

/-- Does the start attempt of this event (if any) adopt rather than
launch? -/
def adoptOnly : Event → Bool
  | .doStart env => env.existingGateway
  | .reconnectFire env => env.existingGateway
  | _ => true

/-- A connected manager holding one pending request with id "a" and method
"m". -/
def wsOpenSt : ManagerState :=
  { initialState with ws := some wsOPEN, pendingRequests := [("a", PendingReq.mk "m")] }

/-- A running manager with an open socket and no pending requests. -/
def runningSt : ManagerState :=
  { process := none
    ws := some wsOPEN
    status := { state := GWState.running, port := GATEWAY_PORT, connectedAt := some 2000 }
    reconnectTimer := false
    pingInterval := true
    pendingRequests := [] }

/-- The running manager with one pending request. -/
def runningPendingSt : ManagerState :=
  { runningSt with pendingRequests := [("a", PendingReq.mk "m")] }

/-- An envelope that has an error field (with value null) whose id matches
a pending request. -/
def falsyErrMsg : InMessage :=
  { id := some "a", result := JsVal.string "ok", error := JsVal.null }

/-- A response envelope whose id matches no pending request. -/
def unmatchedMsg : InMessage := { id := some "b", result := JsVal.number 5 }

/-- A start environment in which the spawn fails (and hence the backend
never becomes healthy). -/
def envSpawnFail : Env := { spawnErrors := true, readyOk := false }

/-- A start environment that launches a process with pid 123 and
succeeds. -/
def envLaunch9 : Env := { spawnPid := some 123, now := 1000 }

/-- A start environment that adopts an already-healthy backend. -/
def envAdopt9 : Env := { existingGateway := true, now := 2000 }

/-- A bridge environment in which every manager operation succeeds. -/
def bOk : BridgeEnv := ⟨Except.ok (), Except.ok (), Except.ok JsVal.undef⟩

end ClawX

namespace ClawX

lemma settlesOf_append (a b : List Eff) (X : String) :
    settlesOf (a ++ b) X = settlesOf a X + settlesOf b X := by
  induction a with
  | nil => simp [settlesOf]
  | cons e es ih =>
      cases e <;> simp [settlesOf, ih] <;> omega

lemma tblCount_delete_self (t : PendingTable) (i : String) :
    tblCount (tblDelete t i) i = 0 := by
  induction t with
  | nil => rfl
  | cons p rest ih =>
      by_cases h : p.1 = i <;> simp [tblCount, tblDelete, h, ih]

lemma tblCount_delete_ne (t : PendingTable) (i X : String) (h : ¬(i = X)) :
    tblCount (tblDelete t i) X = tblCount t X := by
  have h' : ¬(X = i) := fun hh => h hh.symm
  induction t with
  | nil => rfl
  | cons p rest ih =>
      by_cases h1 : p.1 = i
      · have h2 : ¬(p.1 = X) := h1 ▸ h
        simp [tblCount, tblDelete, h1, h2, h, h', ih]
      · by_cases h2 : p.1 = X <;> simp [tblCount, tblDelete, h1, h2, h, h', ih]

lemma tblHas_count (t : PendingTable) (X : String) (h : tblHas t X = true) :
    1 ≤ tblCount t X := by
  induction t with
  | nil => simp [tblHas] at h
  | cons p rest ih =>
      by_cases h1 : p.1 = X
      · simp [tblCount, h1]
      · simp [tblHas, h1] at h
        simp [tblCount, h1]
        exact ih h

lemma settlesOf_stopRejects (t : PendingTable) (X s : String) :
    settlesOf (t.map (fun p => Eff.settle p.1 (Outcome.rejected s))) X = tblCount t X := by
  induction t with
  | nil => rfl
  | cons p rest ih =>
      by_cases h1 : p.1 = X <;> simp [settlesOf, tblCount, h1, ih]

lemma tblCount_set_ne (t : PendingTable) (i X : String) (r : PendingReq) (h : ¬(i = X)) :
    tblCount (tblSet t i r) X = tblCount t X := by
  have h' : ¬(X = i) := fun hh => h hh.symm
  induction t with
  | nil => simp [tblSet, tblCount, h]
  | cons p rest ih =>
      by_cases h1 : p.1 = i
      · have h2 : ¬(p.1 = X) := h1 ▸ h
        simp [tblSet, tblCount, h1, h2]
      · by_cases h2 : p.1 = X <;> simp [tblSet, tblCount, h1, h2, h, h', ih]

lemma tblHas_set (t : PendingTable) (i X : String) (r : PendingReq) :
    tblHas (tblSet t i r) X = (tblHas t X || i == X) := by
  induction t with
  | nil => simp [tblSet, tblHas, BEq.comm]
  | cons p rest ih =>
      by_cases h1 : p.1 = i <;>
        simp [tblSet, tblHas, h1, ih, Bool.or_assoc] <;>
        cases hr : tblHas rest X <;> cases hi : (i == X) <;> simp_all

lemma tblGet_delete_ne (t : PendingTable) (X Y : String) (h : ¬(Y = X)) :
    tblGet (tblDelete t X) Y = tblGet t Y := by
  have h' : ¬(X = Y) := fun hh => h hh.symm
  induction t with
  | nil => rfl
  | cons p rest ih =>
      by_cases h1 : p.1 = X
      · have h2 : ¬(p.1 = Y) := by rw [h1]; exact h'
        simp [tblGet, tblDelete, h1, h2, h, h', ih]
      · by_cases h2 : p.1 = Y <;> simp [tblGet, tblDelete, h1, h2, h, h', ih]

lemma tblHas_of_get (t : PendingTable) (X : String) (e : PendingReq)
    (h : tblGet t X = some e) : tblHas t X = true := by
  induction t with
  | nil => simp [tblGet] at h
  | cons p rest ih =>
      by_cases h1 : p.1 = X
      · simp [tblHas, h1]
      · simp [tblGet, h1] at h
        simp [tblHas, h1]
        exact ih h

lemma tblHas_delete_ne (t : PendingTable) (i X : String) (h : ¬(i = X)) :
    tblHas (tblDelete t i) X = tblHas t X := by
  have h' : ¬(X = i) := fun hh => h hh.symm
  induction t with
  | nil => rfl
  | cons p rest ih =>
      by_cases h1 : p.1 = i
      · have h2 : ¬(p.1 = X) := h1 ▸ h
        simp [tblHas, tblDelete, h1, h2, h, h', ih]
      · by_cases h2 : p.1 = X <;> simp [tblHas, tblDelete, h1, h2, h, h', ih]

lemma startBody_pendingRequests (st : ManagerState) (env : Env) :
    ((startBody st env).1).pendingRequests = st.pendingRequests := by
  rcases env with ⟨eg, sp, se, ro, ce, now⟩
  cases eg <;> rcases ce with _ | m <;> rcases sp with _ | p <;> cases se <;> cases ro <;>
    simp [startBody, connectStep, startProcessState, setStatusE, startProcessResult,
      startProcessSettled, promSettle] <;> (try split) <;> rfl

lemma start_pendingRequests (st : ManagerState) (env : Env) :
    ((start st env).1).pendingRequests = st.pendingRequests := by
  by_cases h : st.status.state = GWState.running
  · simp [start, h]
  · have h' : (st.status.state == GWState.running) = false := by
      simp [h]
    unfold start
    rw [h']
    simp only [Bool.false_eq_true, if_false]
    rcases hb : startBody ((setStatusE st { state := some GWState.starting }).1) env
      with ⟨st2, e2, r⟩
    have hp := startBody_pendingRequests ((setStatusE st { state := some GWState.starting }).1) env
    rw [hb] at hp
    cases r <;> simp [hb, setStatusE] <;> simpa [setStatusE] using hp

lemma startBody_no_settles (st : ManagerState) (env : Env) (X : String) :
    settlesOf (startBody st env).2.1 X = 0 := by
  rcases env with ⟨eg, sp, se, ro, ce, now⟩
  cases eg <;> rcases ce with _ | m <;> rcases sp with _ | p <;> cases se <;> cases ro <;>
    simp [startBody, connectStep, startProcessState, setStatusE, startProcessResult,
      startProcessSettled, promSettle, settlesOf] <;> (try split) <;> simp [settlesOf]

lemma start_no_settles (st : ManagerState) (env : Env) (X : String) :
    settlesOf (start st env).2.1 X = 0 := by
  by_cases h : st.status.state = GWState.running
  · simp [start, h, settlesOf]
  · have h' : (st.status.state == GWState.running) = false := by simp [h]
    unfold start
    rw [h']
    simp only [Bool.false_eq_true, if_false]
    rcases hb : startBody ((setStatusE st { state := some GWState.starting }).1) env
      with ⟨st2, e2, r⟩
    have hp := startBody_no_settles ((setStatusE st { state := some GWState.starting }).1) env X
    rw [hb] at hp
    cases r <;> simp [hb, setStatusE, settlesOf, settlesOf_append] <;>
      simpa [setStatusE] using hp

lemma startBody_reconnectTimer (st : ManagerState) (env : Env) :
    ((startBody st env).1).reconnectTimer = st.reconnectTimer := by
  rcases env with ⟨eg, sp, se, ro, ce, now⟩
  cases eg <;> rcases ce with _ | m <;> rcases sp with _ | p <;> cases se <;> cases ro <;>
    simp [startBody, connectStep, startProcessState, setStatusE, startProcessResult,
      startProcessSettled, promSettle] <;> (try split) <;> rfl

lemma start_reconnectTimer (st : ManagerState) (env : Env) :
    ((start st env).1).reconnectTimer = st.reconnectTimer := by
  by_cases h : st.status.state = GWState.running
  · simp [start, h]
  · have h' : (st.status.state == GWState.running) = false := by simp [h]
    unfold start
    rw [h']
    simp only [Bool.false_eq_true, if_false]
    rcases hb : startBody ((setStatusE st { state := some GWState.starting }).1) env
      with ⟨st2, e2, r⟩
    have hp := startBody_reconnectTimer ((setStatusE st { state := some GWState.starting }).1) env
    rw [hb] at hp
    cases r <;> simp [hb, setStatusE] <;> simpa [setStatusE] using hp

lemma startBody_pid_adopt (st : ManagerState) (env : Env) (h : env.existingGateway = true) :
    ((startBody st env).1).status.pid = st.status.pid := by
  rcases env with ⟨eg, sp, se, ro, ce, now⟩
  simp only at h
  subst h
  rcases ce with _ | m <;>
    simp [startBody, connectStep, setStatusE, applyUpdate]

lemma start_pid_adopt (st : ManagerState) (env : Env) (h : env.existingGateway = true) :
    ((start st env).1).status.pid = st.status.pid := by
  by_cases hr : st.status.state = GWState.running
  · simp [start, hr]
  · have h' : (st.status.state == GWState.running) = false := by simp [hr]
    unfold start
    rw [h']
    simp only [Bool.false_eq_true, if_false]
    rcases hb : startBody ((setStatusE st { state := some GWState.starting }).1) env
      with ⟨st2, e2, r⟩
    have hp := startBody_pid_adopt ((setStatusE st { state := some GWState.starting }).1) env h
    rw [hb] at hp
    cases r <;> simp [hb, setStatusE, applyUpdate] <;>
      simpa [setStatusE, applyUpdate] using hp

end ClawX

namespace ClawX

lemma step_settle_bound (st : ManagerState) (e : Event) (X : String)
    (h : registersId e X = false) :
    settlesOf (step st e).2 X + tblCount ((step st e).1).pendingRequests X
      ≤ tblCount st.pendingRequests X := by
  cases e with
  | doStart env =>
      simp [step, start_no_settles, start_pendingRequests]
  | doStop =>
      rcases st with ⟨pr, ws, status, rt, pi, tbl⟩
      cases ws <;> cases pr <;>
        simp [step, stop, setStatusE, settlesOf_append, settlesOf,
          settlesOf_stopRejects, tblCount]
  | doRpc m i p =>
      simp only [registersId] at h
      have hne : ¬(i = X) := by simpa using h
      by_cases hw : wsIsOpen st.ws <;>
        simp [step, rpc, hw, settlesOf, tblCount_set_ne _ _ _ _ hne]
  | recv m =>
      rcases m with ⟨mid, mres, merr⟩
      rcases mid with _ | i
      · simp [step, handleMessage, settlesOf]
      · by_cases hc : (!(i == "") && tblHas st.pendingRequests i) = true
        · have hhas : tblHas st.pendingRequests i = true := by
            simp at hc; exact hc.2
          by_cases hix : i = X
          · subst hix
            have hcount := tblHas_count st.pendingRequests i hhas
            by_cases he : JsVal.truthy merr <;>
              simp [step, handleMessage, hc, he, settlesOf, tblCount_delete_self] <;>
              omega
          · by_cases he : JsVal.truthy merr <;>
              simp [step, handleMessage, hc, he, settlesOf, hix,
                tblCount_delete_ne _ _ _ hix]
        · simp [step, handleMessage, hc, settlesOf]
  | timeoutFire i =>
      rcases hg : tblGet st.pendingRequests i with _ | req
      · simp [step, fireTimeout, hg, settlesOf]
      · have hhas := tblHas_of_get _ _ _ hg
        by_cases hix : i = X
        · subst hix
          have hcount := tblHas_count st.pendingRequests i hhas
          simp [step, fireTimeout, hg, settlesOf, tblCount_delete_self]
          omega
        · simp [step, fireTimeout, hg, settlesOf, hix, tblCount_delete_ne _ _ _ hix]
  | wsClose =>
      by_cases hs : st.status.state = GWState.running <;>
        by_cases hr : st.reconnectTimer <;>
        simp [step, onWsClose, setStatusE, scheduleReconnect, hs, hr, settlesOf]
  | procExit c =>
      by_cases hs : st.status.state = GWState.running <;>
        by_cases hr : st.reconnectTimer <;>
        simp [step, onProcExit, setStatusE, scheduleReconnect, hs, hr, settlesOf]
  | reconnectFire env =>
      by_cases hr : st.reconnectTimer
      · simp only [step, fireReconnect, hr, if_true]
        rcases hb : start { st with reconnectTimer := false } env with ⟨st2, effs, r⟩
        have hs := start_no_settles { st with reconnectTimer := false } env X
        have hp := start_pendingRequests { st with reconnectTimer := false } env
        rw [hb] at hs hp
        have hrt := start_reconnectTimer { st with reconnectTimer := false } env
        rw [hb] at hrt
        dsimp only at hs hp hrt
        cases r <;>
          simp [hb, scheduleReconnect, hrt, settlesOf_append, settlesOf, hs, hp]
      · simp [step, fireReconnect, hr, settlesOf]

lemma traceSettles_le_count (st : ManagerState) (evs : List Event) (X : String)
    (h : ∀ e ∈ evs, registersId e X = false) :
    traceSettles st evs X ≤ tblCount st.pendingRequests X := by
  induction evs generalizing st with
  | nil => simp [traceSettles]
  | cons e es ih =>
      have h1 := h e (List.mem_cons_self _ _)
      have h2 : ∀ e' ∈ es, registersId e' X = false :=
        fun e' he' => h e' (List.mem_cons_of_mem _ he')
      have hb := step_settle_bound st e X h1
      have ht := ih (step st e).1 h2
      simp only [traceSettles]
      omega

lemma step_removal_classified (st : ManagerState) (e : Event) (X : String)
    (hin : tblHas st.pendingRequests X = true)
    (hout : tblHas ((step st e).1).pendingRequests X = false) :
    e = Event.doStop ∨ e = Event.timeoutFire X ∨ ∃ m, e = Event.recv m ∧ m.id = some X := by
  cases e with
  | doStart env =>
      rw [show (step st (Event.doStart env)).1 = (start st env).1 from rfl,
        start_pendingRequests] at hout
      rw [hin] at hout; exact absurd hout (by simp)
  | doStop => exact Or.inl rfl
  | doRpc m i p =>
      by_cases hw : wsIsOpen st.ws
      · simp [step, rpc, hw, tblHas_set, hin] at hout
      · simp [step, rpc, hw, hin] at hout
  | recv m =>
      rcases m with ⟨mid, mres, merr⟩
      rcases mid with _ | i
      · simp [step, handleMessage, hin] at hout
      · by_cases hc : (!(i == "") && tblHas st.pendingRequests i) = true
        · by_cases hix : i = X
          · subst hix
            exact Or.inr (Or.inr ⟨⟨some i, mres, merr⟩, rfl, rfl⟩)
          · by_cases he : JsVal.truthy merr <;>
              simp [step, handleMessage, hc, he, tblHas_delete_ne _ _ _ hix, hin] at hout
        · simp [step, handleMessage, hc, hin] at hout
  | timeoutFire i =>
      rcases hg : tblGet st.pendingRequests i with _ | req
      · simp [step, fireTimeout, hg, hin] at hout
      · by_cases hix : i = X
        · subst hix; exact Or.inr (Or.inl rfl)
        · simp [step, fireTimeout, hg, tblHas_delete_ne _ _ _ hix, hin] at hout
  | wsClose =>
      by_cases hs : st.status.state = GWState.running <;>
        by_cases hr : st.reconnectTimer <;>
        simp [step, onWsClose, setStatusE, scheduleReconnect, hs, hr, hin] at hout
  | procExit c =>
      by_cases hs : st.status.state = GWState.running <;>
        by_cases hr : st.reconnectTimer <;>
        simp [step, onProcExit, setStatusE, scheduleReconnect, hs, hr, hin] at hout
  | reconnectFire env =>
      by_cases hr : st.reconnectTimer
      · simp only [step, fireReconnect, hr, if_true] at hout
        rcases hb : start { st with reconnectTimer := false } env with ⟨st2, effs, r⟩
        have hp := start_pendingRequests { st with reconnectTimer := false } env
        rw [hb] at hp
        dsimp only at hp
        rw [hb] at hout
        cases r with
        | ok _ => simp [hp, hin] at hout
        | error m =>
            simp only [scheduleReconnect] at hout
            split at hout <;> simp [hp, hin] at hout
      · simp [step, fireReconnect, hr, hin] at hout

lemma step_pid_preserved (st : ManagerState) (e : Event)
    (h : adoptOnly e = true) :
    ((step st e).1).status.pid = st.status.pid := by
  cases e with
  | doStart env =>
      exact start_pid_adopt st env (by simpa [adoptOnly] using h)
  | doStop =>
      rcases st with ⟨pr, ws, status, rt, pi, tbl⟩
      cases ws <;> cases pr <;> simp [step, stop, setStatusE, applyUpdate]
  | doRpc m i p =>
      by_cases hw : wsIsOpen st.ws <;> simp [step, rpc, hw]
  | recv m =>
      rcases m with ⟨mid, mres, merr⟩
      rcases mid with _ | i
      · simp [step, handleMessage]
      · by_cases hc : (!(i == "") && tblHas st.pendingRequests i) = true <;>
          by_cases he : JsVal.truthy merr <;>
          simp [step, handleMessage, hc, he]
  | timeoutFire i =>
      rcases hg : tblGet st.pendingRequests i with _ | req <;>
        simp [step, fireTimeout, hg]
  | wsClose =>
      by_cases hs : st.status.state = GWState.running <;>
        by_cases hr : st.reconnectTimer <;>
        simp [step, onWsClose, setStatusE, scheduleReconnect, hs, hr, applyUpdate]
  | procExit c =>
      by_cases hs : st.status.state = GWState.running <;>
        by_cases hr : st.reconnectTimer <;>
        simp [step, onProcExit, setStatusE, scheduleReconnect, hs, hr, applyUpdate]
  | reconnectFire env =>
      by_cases hr : st.reconnectTimer
      · simp only [step, fireReconnect, hr, if_true]
        rcases hb : start { st with reconnectTimer := false } env with ⟨st2, effs, r⟩
        have hp := start_pid_adopt { st with reconnectTimer := false } env
          (by simpa [adoptOnly] using h)
        rw [hb] at hp
        dsimp only at hp
        cases r <;> simp [hb, scheduleReconnect, hp] <;> split <;> simp [hp]
      · simp [step, fireReconnect, hr]

lemma run_pid_preserved (st : ManagerState) (evs : List Event)
    (h : ∀ e ∈ evs, adoptOnly e = true) :
    (run st evs).status.pid = st.status.pid := by
  induction evs generalizing st with
  | nil => simp [run]
  | cons e es ih =>
      have h1 := h e (List.mem_cons_self _ _)
      have h2 : ∀ e' ∈ es, adoptOnly e' = true :=
        fun e' he' => h e' (List.mem_cons_of_mem _ he')
      simp only [run]
      rw [ih (step st e).1 h2, step_pid_preserved st e h1]

lemma filter_isSettle_map_reject (t : PendingTable) (s : String) :
    (t.map (fun p => Eff.settle p.1 (Outcome.rejected s))).filter isSettleEff
      = t.map (fun p => Eff.settle p.1 (Outcome.rejected s)) := by
  induction t with
  | nil => rfl
  | cons p rest ih => simp [isSettleEff, ih]

lemma stop_spec (st : ManagerState) :
    ((stop st).1).status.state = GWState.stopped ∧
    ((stop st).1).reconnectTimer = false ∧
    ((stop st).1).pingInterval = false ∧
    ((stop st).1).ws = none ∧
    ((stop st).1).process = none ∧
    ((stop st).1).pendingRequests = [] ∧
    ((stop st).2).contains Eff.wsClosed = st.ws.isSome ∧
    ((stop st).2).contains Eff.processKilled = st.process.isSome ∧
    ((stop st).2).filter isSettleEff
      = st.pendingRequests.map (fun p => Eff.settle p.1 (Outcome.rejected "Gateway stopped")) ∧
    (∀ id, fireTimeout ((stop st).1) id = ((stop st).1, [])) := by
  rcases st with ⟨pr, ws, status, rt, pi, tbl⟩
  cases ws <;> cases pr <;>
    simp [stop, setStatusE, applyUpdate, fireTimeout, tblGet, isSettleEff,
      filter_isSettle_map_reject, List.filter_append]

end ClawX

namespace ClawX

/-- C1 (counterexample): an inbound response whose envelope has an error
field with the JavaScript-falsy value null, and whose id matches a pending
request, resolves the promise with the result instead of rejecting with the
server-supplied message, because the code tests the truthiness of the error
value rather than the presence of the field. -/
theorem C1_falsy_error_field_resolves :
    (handleMessage wsOpenSt falsyErrMsg).2
      = [Eff.settle "a" (Outcome.resolved (JsVal.string "ok"))] ∧
    hasRejectFor (handleMessage wsOpenSt falsyErrMsg).2 "a" = false := by
  decide

/-- C1 (amended): for a pending request with correlation id X, (a) a
response envelope with id X settles exactly that request — rejecting with
the stringified server-supplied error when the error field is truthy, else
resolving with the result — removes it from the table and leaves every
other in-flight id untouched; (b) the 30000ms timeout rejects it with an
RPC-timeout error naming the method and removes it; (c) a stop flush
empties the table rejecting every pending request with a Gateway-stopped
error; and (d) along any event trace that does not register X again, X is
settled at most once (no double-resolution). -/
theorem C1_request_response_lifecycle :
    (∀ st X (m : InMessage) e, tblGet st.pendingRequests X = some e →
       m.id = some X → ¬(X = "") →
       handleMessage st m =
         ({ st with pendingRequests := tblDelete st.pendingRequests X },
          [Eff.settle X (if m.error.truthy then Outcome.rejected m.error.toJsString
                         else Outcome.resolved m.result)]) ∧
       (∀ Y, ¬(Y = X) →
          tblGet ((handleMessage st m).1).pendingRequests Y = tblGet st.pendingRequests Y)) ∧
    (∀ st X e, tblGet st.pendingRequests X = some e →
       fireTimeout st X =
         ({ st with pendingRequests := tblDelete st.pendingRequests X },
          [Eff.settle X (Outcome.rejected ("RPC timeout: " ++ e.method))])) ∧
    (∀ st, ((stop st).1).pendingRequests = [] ∧
       ((stop st).2).filter isSettleEff
         = st.pendingRequests.map (fun p => Eff.settle p.1 (Outcome.rejected "Gateway stopped"))) ∧
    (∀ st X evs, tblCount st.pendingRequests X ≤ 1 →
       (∀ e ∈ evs, registersId e X = false) → traceSettles st evs X ≤ 1) := by
  refine ⟨?_, ?_, ?_, ?_⟩
  · intro st X m e hg hid hX
    rcases m with ⟨mid, mres, merr⟩
    simp only at hid
    subst hid
    have hhas := tblHas_of_get _ _ _ hg
    have heq : handleMessage st ⟨some X, mres, merr⟩ =
        ({ st with pendingRequests := tblDelete st.pendingRequests X },
         [Eff.settle X (if merr.truthy then Outcome.rejected merr.toJsString
                        else Outcome.resolved mres)]) := by
      by_cases he : merr.truthy <;> simp [handleMessage, hhas, hX, he]
    refine ⟨heq, ?_⟩
    intro Y hY
    rw [heq]
    exact tblGet_delete_ne _ _ _ hY
  · intro st X e hg
    simp [fireTimeout, hg]
  · intro st
    exact ⟨(stop_spec st).2.2.2.2.2.1, (stop_spec st).2.2.2.2.2.2.2.2.1⟩
  · intro st X evs hc h
    exact le_trans (traceSettles_le_count st evs X h) hc

/-- C1 (witness): the amended theorem applied at a connected manager with
one pending request — a matching truthy-error response rejects with the
server message, the timeout rejects with the method name, stop empties the
table, and a response-then-timeout trace settles the id exactly once. -/
theorem C1_request_response_lifecycle_witness :
    handleMessage wsOpenSt { id := some "a", error := JsVal.errObj "boom" } =
      ({ wsOpenSt with pendingRequests := [] },
       [Eff.settle "a" (Outcome.rejected "Error: boom")]) ∧
    fireTimeout wsOpenSt "a" =
      ({ wsOpenSt with pendingRequests := [] },
       [Eff.settle "a" (Outcome.rejected "RPC timeout: m")]) ∧
    ((stop wsOpenSt).1).pendingRequests = [] ∧
    traceSettles wsOpenSt
      [Event.recv { id := some "a", error := JsVal.undef }, Event.timeoutFire "a"] "a" ≤ 1 := by
  have h := C1_request_response_lifecycle
  refine ⟨?_, ?_, ?_, ?_⟩
  · have h1 := (h.1 wsOpenSt "a" { id := some "a", error := JsVal.errObj "boom" }
      (PendingReq.mk "m") (by decide) rfl (by decide)).1
    simpa [wsOpenSt, tblDelete, JsVal.truthy, JsVal.toJsString] using h1
  · have h2 := h.2.1 wsOpenSt "a" (PendingReq.mk "m") (by decide)
    simpa [wsOpenSt, tblDelete] using h2
  · exact (h.2.2.1 wsOpenSt).1
  · exact h.2.2.2 wsOpenSt "a" _ (by decide) (by decide)

/-- C2: after stop the state is stopped, the reconnect and heartbeat timers
are cancelled, the socket and process handles are released (with a close
effect exactly when a socket was held and a kill effect exactly when a
process was held), every request pending at the moment of the call is
rejected with a Gateway-stopped error within the same synchronous teardown,
the table is empty, and no pending timeout can fire afterwards. -/
theorem C2_stop_teardown (st : ManagerState) :
    ((stop st).1).status.state = GWState.stopped ∧
    ((stop st).1).reconnectTimer = false ∧
    ((stop st).1).pingInterval = false ∧
    ((stop st).1).ws = none ∧
    ((stop st).1).process = none ∧
    ((stop st).1).pendingRequests = [] ∧
    ((stop st).2).contains Eff.wsClosed = st.ws.isSome ∧
    ((stop st).2).contains Eff.processKilled = st.process.isSome ∧
    ((stop st).2).filter isSettleEff
      = st.pendingRequests.map (fun p => Eff.settle p.1 (Outcome.rejected "Gateway stopped")) ∧
    (∀ id, fireTimeout ((stop st).1) id = ((stop st).1, [])) :=
  stop_spec st

/-- C3: a socket close while running transitions to stopped, emits the
status event, and leaves exactly one reconnect timer scheduled (scheduling
a fresh 5000ms timer only when none exists — never a duplicate); the
reconnect fire re-invokes start and reschedules another 5000ms attempt on
failure; a close while not running (in particular after an explicit stop)
changes no state and schedules nothing. -/
theorem C3_disconnect_schedules_reconnect :
    (∀ st, st.status.state = GWState.running →
       onWsClose st =
         ({ st with
             ws := st.ws.map (fun _ => wsCLOSED)
             status := { st.status with state := GWState.stopped }
             reconnectTimer := true },
          Eff.statusEmit { st.status with state := GWState.stopped } ::
            (if st.reconnectTimer then [] else [Eff.reconnectScheduled 5000]))) ∧
    (∀ st env, st.reconnectTimer = true →
       fireReconnect st env =
         (match start { st with reconnectTimer := false } env with
          | (st2, effs, Except.ok _) => (st2, effs)
          | (st2, effs, Except.error _) =>
              ({ st2 with reconnectTimer := true }, effs ++ [Eff.reconnectScheduled 5000]))) ∧
    (∀ st, ¬(st.status.state = GWState.running) →
       onWsClose st = ({ st with ws := st.ws.map (fun _ => wsCLOSED) }, [])) ∧
    (∀ st, onWsClose ((stop st).1) = ((stop st).1, [])) := by
  refine ⟨?_, ?_, ?_, ?_⟩
  · intro st h
    by_cases hr : st.reconnectTimer <;>
      simp [onWsClose, setStatusE, scheduleReconnect, applyUpdate, h, hr]
  · intro st env hr
    simp only [fireReconnect, hr, if_true]
    rcases hb : start { st with reconnectTimer := false } env with ⟨st2, effs, r⟩
    have hrt := start_reconnectTimer { st with reconnectTimer := false } env
    rw [hb] at hrt
    dsimp only at hrt
    cases r <;> simp [hb, scheduleReconnect, hrt]
  · intro st h
    simp [onWsClose, h]
  · intro st
    have h1 : ((stop st).1).status.state = GWState.stopped := (stop_spec st).1
    have h2 : ((stop st).1).ws = none := (stop_spec st).2.2.2.1
    simp [onWsClose, h1, h2]
    rw [← h2]

/-- C3 (witness): the theorem applied to a concrete running manager with no
reconnect pending — the close event yields the stopped state, a status
event, and one scheduled 5000ms reconnect. -/
theorem C3_disconnect_schedules_reconnect_witness :
    runningSt.status.state = GWState.running ∧
    onWsClose runningSt =
      ({ runningSt with
          ws := some wsCLOSED
          status := { runningSt.status with state := GWState.stopped }
          reconnectTimer := true },
       [Eff.statusEmit { runningSt.status with state := GWState.stopped },
        Eff.reconnectScheduled 5000]) := by
  constructor
  · decide
  · have h := C3_disconnect_schedules_reconnect.1 runningSt (by decide)
    simpa [runningSt] using h

/-- C4: an RPC call made while the socket is not open rejects synchronously
with the Gateway-not-connected error, registers no correlation id, and
leaves the whole manager state (in particular the pending-request table)
unchanged. -/
theorem C4_rpc_not_connected (st : ManagerState) (method id : String) (params : JsVal)
    (h : wsIsOpen st.ws = false) :
    rpc st method id params = (st, [Eff.rpcEarlyReject "Gateway not connected"]) := by
  simp [rpc, h]

/-- C4 (witness): the theorem applied to the freshly constructed
(disconnected) manager. -/
theorem C4_rpc_not_connected_witness :
    wsIsOpen initialState.ws = false ∧
    rpc initialState "skills.list" "id-1" JsVal.undef
      = (initialState, [Eff.rpcEarlyReject "Gateway not connected"]) :=
  ⟨by decide, C4_rpc_not_connected initialState "skills.list" "id-1" JsVal.undef (by decide)⟩

/-- C5 (code bug): when the spawn fails, the promise of startProcess has
already been resolved by the synchronous resolve call at the end of the
executor, so the asynchronously delivered error event cannot reject it;
the start attempt therefore proceeds to readiness polling and fails with
the generic Gateway-failed-to-start timeout message — recorded in the
error state and re-thrown — rather than surfacing the spawn failure, and
the result of start is bitwise independent of whether the spawn errored. -/
theorem C5_spawn_failure_swallowed :
    startProcessSettled envSpawnFail = some (Except.ok ()) ∧
    startProcessResult envSpawnFail = Except.ok () ∧
    (start initialState envSpawnFail).2.2 = Except.error "Error: Gateway failed to start" ∧
    ((start initialState envSpawnFail).1).status.state = GWState.error ∧
    ((start initialState envSpawnFail).1).status.error
      = some "Error: Gateway failed to start" ∧
    start initialState { envSpawnFail with spawnErrors := false }
      = start initialState envSpawnFail :=
  ⟨rfl, rfl, rfl, rfl, rfl, rfl⟩

/-- C6 (counterexample): an inbound response whose id matches no pending
entry is not silently dropped — it is re-emitted as a message event (which
the bridge forwards to the renderer), so it is delivered elsewhere. -/
theorem C6_unmatched_response_emitted :
    (handleMessage wsOpenSt unmatchedMsg).2 = [Eff.messageEmit unmatchedMsg] ∧
    ¬((handleMessage wsOpenSt unmatchedMsg).2 = []) := by
  decide

/-- C6 (amended): an inbound envelope whose id is absent, empty, or
unknown to the pending-request table settles no promise and mutates no
state, and is broadcast as a message event instead of being dropped. -/
theorem C6_unmatched_response_broadcast (st : ManagerState) (m : InMessage)
    (h : ∀ i, m.id = some i → i = "" ∨ tblHas st.pendingRequests i = false) :
    handleMessage st m = (st, [Eff.messageEmit m]) := by
  rcases m with ⟨mid, mres, merr⟩
  rcases mid with _ | i
  · simp [handleMessage]
  · rcases h i rfl with hi | hi
    · simp [handleMessage, hi]
    · simp [handleMessage, hi]

/-- C6 (witness): the amended theorem applied to a concrete unmatched
response. -/
theorem C6_unmatched_response_broadcast_witness :
    handleMessage wsOpenSt unmatchedMsg = (wsOpenSt, [Eff.messageEmit unmatchedMsg]) :=
  C6_unmatched_response_broadcast wsOpenSt unmatchedMsg (by
    intro i hi
    simp only [unmatchedMsg] at hi
    cases hi
    exact Or.inr (by decide))

/-- C7: calling start while the state is already running returns
immediately with no state change, no effects (no spawn, no socket, no
status event), and a successful result. -/
theorem C7_start_noop_when_running (st : ManagerState) (env : Env)
    (h : st.status.state = GWState.running) :
    start st env = (st, [], Except.ok ()) := by
  simp [start, h]

/-- C7 (witness): the theorem applied to a concrete running manager. -/
theorem C7_start_noop_when_running_witness :
    runningSt.status.state = GWState.running ∧
    start runningSt { existingGateway := true } = (runningSt, [], Except.ok ()) :=
  ⟨by decide, C7_start_noop_when_running runningSt { existingGateway := true } (by decide)⟩

/-- C8 (counterexample): the status command does not resolve to a tagged
success/error result — it returns the raw status snapshot with no success
field. -/
theorem C8_status_reply_untagged :
    ipcHandle initialState bOk GwCommand.status = IpcReply.raw (getStatus initialState) ∧
    isTagged (ipcHandle initialState bOk GwCommand.status) = false :=
  ⟨rfl, rfl⟩

/-- C8 (amended): the start, stop, restart and rpc bridge commands always
resolve to a tagged result — success carrying the result for rpc, failure
carrying the stringified thrown error — and never propagate an exception;
the status command alone returns the raw (untagged) status snapshot and
cannot throw. -/
theorem C8_bridge_tagged_results (st : ManagerState) (b : BridgeEnv)
    (method : String) (params v e : JsVal) (sR spR : Except JsVal Unit)
    (rR : Except JsVal JsVal) :
    isTagged (ipcHandle st b GwCommand.cmdStart) = true ∧
    isTagged (ipcHandle st b GwCommand.cmdStop) = true ∧
    isTagged (ipcHandle st b GwCommand.cmdRestart) = true ∧
    isTagged (ipcHandle st b (GwCommand.cmdRpc method params)) = true ∧
    ipcHandle st b GwCommand.status = IpcReply.raw (getStatus st) ∧
    ipcHandle st ⟨Except.error e, spR, rR⟩ GwCommand.cmdStart
      = IpcReply.tagged false none (some e.toJsString) ∧
    ipcHandle st ⟨sR, Except.error e, rR⟩ GwCommand.cmdStop
      = IpcReply.tagged false none (some e.toJsString) ∧
    ipcHandle st ⟨sR, spR, Except.error e⟩ (GwCommand.cmdRpc method params)
      = IpcReply.tagged false none (some e.toJsString) ∧
    ipcHandle st ⟨sR, spR, Except.ok v⟩ (GwCommand.cmdRpc method params)
      = IpcReply.tagged true (some v) none := by
  rcases b with ⟨bs, bp, br⟩
  refine ⟨?_, ?_, ?_, ?_, rfl, rfl, rfl, rfl, rfl⟩ <;>
    cases bs <;> cases bp <;> cases br <;> simp [ipcHandle, isTagged]

/-- C9 (counterexample): launch a backend (pid 123), stop it, then adopt a
pre-existing backend — the manager is running with no launched process,
yet processId is still 123, stale from the earlier launched run, because
stop never clears the pid field of the status. -/
theorem C9_stale_pid_after_adoption :
    (run initialState
        [Event.doStart envLaunch9, Event.doStop, Event.doStart envAdopt9]).status.state
      = GWState.running ∧
    (run initialState
        [Event.doStart envLaunch9, Event.doStop, Event.doStart envAdopt9]).process = none ∧
    (run initialState
        [Event.doStart envLaunch9, Event.doStop, Event.doStart envAdopt9]).status.pid
      = some 123 := by
  decide

/-- C9 (amended): processId is written only by the launch path — an
adopting start and a stop both preserve it (stop does not clear it), and
along any trace whose start attempts all adopt, processId never changes;
hence in a Supervisor instance that never launched a process it remains
unset, but after a launch it persists even across stop and adoption. -/
theorem C9_pid_only_from_launch :
    (∀ st env, env.existingGateway = true →
       ((start st env).1).status.pid = st.status.pid) ∧
    (∀ st, ((stop st).1).status.pid = st.status.pid) ∧
    (∀ st evs, (∀ e ∈ evs, adoptOnly e = true) →
       (run st evs).status.pid = st.status.pid) := by
  refine ⟨start_pid_adopt, ?_, run_pid_preserved⟩
  intro st
  rcases st with ⟨pr, ws, status, rt, pi, tbl⟩
  cases ws <;> cases pr <;> simp [stop, setStatusE, applyUpdate]

/-- C9 (witness): the amended theorem applied from the fresh instance — an
adopting start, and an adopt-then-stop trace, both leave processId
unset. -/
theorem C9_pid_only_from_launch_witness :
    ((start initialState envAdopt9).1).status.pid = none ∧
    (run initialState [Event.doStart envAdopt9, Event.doStop]).status.pid = none := by
  have h := C9_pid_only_from_launch
  constructor
  · have h1 := h.1 initialState envAdopt9 (by decide)
    simpa using h1
  · have h2 := h.2.2 initialState [Event.doStart envAdopt9, Event.doStop] (by decide)
    simpa using h2

/-- C10: a socket close event settles no pending request (in particular no
NotConnected- or stopped-style rejection) and leaves the pending-request
table untouched; a pending request with the entry still present is settled
by its own timeout with an RPC-timeout rejection naming the method; and
the only events that can remove a pending id from the table are the stop
flush, the timeout of that id, and a matching inbound response. -/
theorem C10_disconnect_preserves_pending :
    (∀ st X, ((onWsClose st).1).pendingRequests = st.pendingRequests ∧
       settlesOf (onWsClose st).2 X = 0 ∧
       hasRejectFor (onWsClose st).2 X = false) ∧
    (∀ st X e, tblGet st.pendingRequests X = some e →
       fireTimeout st X = ({ st with pendingRequests := tblDelete st.pendingRequests X },
         [Eff.settle X (Outcome.rejected ("RPC timeout: " ++ e.method))])) ∧
    (∀ st e X, tblHas st.pendingRequests X = true →
       tblHas ((step st e).1).pendingRequests X = false →
       (e = Event.doStop ∨ e = Event.timeoutFire X ∨
        ∃ m, e = Event.recv m ∧ m.id = some X)) := by
  refine ⟨?_, ?_, step_removal_classified⟩
  · intro st X
    by_cases hs : st.status.state = GWState.running <;>
      by_cases hr : st.reconnectTimer <;>
      simp [onWsClose, setStatusE, scheduleReconnect, hs, hr, settlesOf, hasRejectFor]
  · intro st X e hg
    simp [fireTimeout, hg]

/-- C10 (witness): the theorem applied to a running manager with one
pending request — the close preserves the table, the timeout settles the
request, and the removal classification holds for the stop event. -/
theorem C10_disconnect_preserves_pending_witness :
    ((onWsClose runningPendingSt).1).pendingRequests = [("a", PendingReq.mk "m")] ∧
    fireTimeout runningPendingSt "a" =
      ({ runningPendingSt with pendingRequests := [] },
       [Eff.settle "a" (Outcome.rejected "RPC timeout: m")]) ∧
    (Event.doStop = Event.doStop ∨ Event.doStop = Event.timeoutFire "a" ∨
     ∃ m, Event.doStop = Event.recv m ∧ m.id = some "a") := by
  have h := C10_disconnect_preserves_pending
  refine ⟨?_, ?_, ?_⟩
  · exact (h.1 runningPendingSt "a").1
  · have h2 := h.2.1 runningPendingSt "a" (PendingReq.mk "m") (by decide)
    simpa [runningPendingSt, tblDelete] using h2
  · exact h.2.2 runningPendingSt Event.doStop "a" (by decide) (by decide)

end ClawX
